import Mathlib

/-!
Shallow embedding of the exercise-attempt subsystem of the edu-math backend:
the scoring engine (`Exercise.calculate_score` in `app/models.py`), the
attempt state machine (`Progress.start_attempt` / `Progress.submit_answers`
in `app/models.py`, wrapped by `ProgressService` in `app/services/exercise.py`),
and the aggregation routines (`AnalyticsService` in `app/services/exercise.py`,
`DashboardService` in `app/services/dashboard.py`,
`ClassService` in `app/services/class_management.py`).

Python floats are modelled as rationals (`ℚ`), timestamps as integer seconds,
calendar dates as integer day numbers.  JSON answer/solution dictionaries are
modelled by structures whose `Option` fields encode present/absent keys.
-/

namespace EduMath

/-- A JSON scalar as it reaches Python's `float()` / `str()` conversions inside
`Exercise.calculate_score`: either a value `float()` accepts (a number or a
numeric string), carried together with its `str()` rendering, or a value
`float()` rejects with `ValueError`/`TypeError` (carried as its `str()` form). -/
inductive PyVal
  | num (q : ℚ) (s : String)
  | nonNum (s : String)
  deriving DecidableEq, Repr

/-- Python `float(v)`, returning `none` where the call raises. -/
def pyFloat : PyVal → Option ℚ
  | .num q _ => some q
  | .nonNum _ => none

/-- Python `str(v)`. -/
def pyStr : PyVal → String
  | .num _ s => s
  | .nonNum s => s

/-- One element of the submitted `student_answers` list: a dictionary whose
keys `selected_option` and `answer` may be absent (`none`). -/
structure StudentAnswer where
  selected_option : Option Int := none
  answer : Option PyVal := none
  deriving DecidableEq, Repr

/-- One element of the exercise's `solutions` list. -/
structure Solution where
  correct_option : Option Int := none
  answer : Option PyVal := none
  tolerance : Option ℚ := none
  deriving DecidableEq, Repr

/-- The `exercise_types` enum of the `exercises` table. -/
inductive ExType
  | multiple_choice | short_answer | calculation | essay
  deriving DecidableEq, Repr

/-- The fields of an `Exercise` row that `calculate_score` reads. -/
structure Exercise where
  type : ExType := .multiple_choice
  solutions : List Solution := []
  max_score : ℚ := 100
  deriving DecidableEq, Repr

/-- The per-question test of the loop body of `Exercise.calculate_score`:
whether `student_answer` is counted correct against `solution` for an exercise
of type `t`.  `multiple_choice` compares the (possibly absent) option indices
with Python `==`; `calculation` parses both sides with `float(... .get('answer', 0))`
and compares within `tolerance` (default `0.01`), any parse failure being
caught and counted incorrect; `short_answer` compares trimmed lower-cased
`str(... .get('answer', ''))`; `essay` has no branch and never counts. -/
def questionCorrect (t : ExType) (solution : Solution) (student_answer : StudentAnswer) : Bool :=
  match t with
  | .multiple_choice => student_answer.selected_option == solution.correct_option
  | .calculation =>
    match pyFloat (student_answer.answer.getD (.num 0 "0")),
          pyFloat (solution.answer.getD (.num 0 "0")) with
    | some student_val, some correct_val =>
        decide (|student_val - correct_val| ≤ solution.tolerance.getD (1/100))
    | _, _ => false
  | .short_answer =>
      (pyStr (student_answer.answer.getD (.nonNum ""))).trim.toLower
        == (pyStr (solution.answer.getD (.nonNum ""))).trim.toLower
  | .essay => false

/-- The count `correct_answers` as accumulated by `calculate_score`: the loop visits
`enumerate(self.solutions)` and tests only indices `i < len(student_answers)`,
i.e. exactly the positions of `solutions.zip student_answers`. -/
def correctCount (ex : Exercise) (student_answers : List StudentAnswer) : Nat :=
  (ex.solutions.zip student_answers).countP fun p => questionCorrect ex.type p.1 p.2

/-- Embedding of `Exercise.calculate_score` (`app/models.py`): returns `0.0` when
`solutions` or `student_answers` is empty/falsy, otherwise
`(correct_answers / total_questions) * max_score` guarded by
`total_questions > 0`. -/
def calculate_score (ex : Exercise) (student_answers : List StudentAnswer) : ℚ :=
  if ex.solutions.isEmpty || student_answers.isEmpty then 0
  else
    let total_questions := ex.solutions.length
    if 0 < total_questions then
      ((correctCount ex student_answers : ℚ) / (total_questions : ℚ)) * ex.max_score
    else 0

/-- The end-to-end example exercise of the spec: two multiple-choice
questions with correct options `[1, 1]` and `max_score = 100`. -/
def demoMC : Exercise :=
  { type := .multiple_choice
    solutions := [{ correct_option := some 1 }, { correct_option := some 1 }]
    max_score := 100 }

/-- C1: for every exercise and submitted answer list, `calculate_score`
returns `(correct_count / total_questions) * max_score`, and `0` when
`total_questions = 0`; a fully-correct submission scores `max_score` and a
fully-incorrect one scores `0`. -/
theorem grading_score_formula :
    (∀ (ex : Exercise) (answers : List StudentAnswer),
      calculate_score ex answers =
        if ex.solutions.length = 0 then 0
        else ((correctCount ex answers : ℚ) / (ex.solutions.length : ℚ)) * ex.max_score)
  ∧ (∀ (ex : Exercise) (answers : List StudentAnswer),
      ex.solutions ≠ [] → ex.solutions.length ≤ answers.length →
      (∀ p ∈ ex.solutions.zip answers, questionCorrect ex.type p.1 p.2 = true) →
      calculate_score ex answers = ex.max_score)
  ∧ (∀ (ex : Exercise) (answers : List StudentAnswer),
      (∀ p ∈ ex.solutions.zip answers, questionCorrect ex.type p.1 p.2 = false) →
      calculate_score ex answers = 0) := by
  have hformula : ∀ (ex : Exercise) (answers : List StudentAnswer),
      calculate_score ex answers =
        if ex.solutions.length = 0 then 0
        else ((correctCount ex answers : ℚ) / (ex.solutions.length : ℚ)) * ex.max_score := by
    intro ex answers
    rcases hsol : ex.solutions with _ | ⟨s, sols⟩
    · simp [calculate_score, hsol]
    · rcases hans : answers with _ | ⟨a, ans⟩
      · simp [calculate_score, correctCount, hsol, hans]
      · simp [calculate_score, correctCount, hsol, hans, Nat.succ_ne_zero]
  refine ⟨hformula, ?_, ?_⟩
  · intro ex answers hne hlen hall
    have hcount : correctCount ex answers = ex.solutions.length := by
      have hz : (ex.solutions.zip answers).length = ex.solutions.length := by
        simp [List.length_zip, Nat.min_eq_left hlen]
      calc correctCount ex answers
          = (ex.solutions.zip answers).length := List.countP_eq_length.mpr hall
        _ = ex.solutions.length := hz
    have hq : (ex.solutions.length : ℚ) ≠ 0 := by
      exact_mod_cast fun h => hne (List.length_eq_zero.mp h)
    rw [hformula, hcount, if_neg (fun h => hne (List.length_eq_zero.mp h)),
      div_self hq, one_mul]
  · intro ex answers hall
    have hcount : correctCount ex answers = 0 := by
      refine List.countP_eq_zero.mpr ?_
      intro p hp
      simp [hall p hp]
    rw [hformula, hcount]
    by_cases h : ex.solutions.length = 0 <;> simp [h]

/-- Witness for C1 at the spec's demo exercise: a fully-correct submission
scores 100 and a fully-incorrect one scores 0. -/
theorem grading_score_formula_witness :
    calculate_score demoMC
        [{ selected_option := some 1 }, { selected_option := some 1 }] = 100
  ∧ calculate_score demoMC
        [{ selected_option := some 0 }, { selected_option := some 0 }] = 0 := by
  constructor
  · exact grading_score_formula.2.1 demoMC _ (by decide) (by decide) (by decide)
  · exact grading_score_formula.2.2 demoMC _ (by decide)

/-- C5: calculation-type grading accepts a parsed submission `s` against a
parsed expected value `e` exactly when `|s - e| ≤ tolerance` with the
per-question tolerance defaulting to `0.01`; a non-numeric submission is
graded incorrect without error; expected `4` with tolerance `0.1` accepts
`3.95` and rejects `3.8`. -/
theorem calculation_tolerance_spec :
    (∀ (sol : Solution) (sa : StudentAnswer) (s : ℚ) (ss : String) (e : ℚ),
      sa.answer = some (.num s ss) →
      pyFloat (sol.answer.getD (.num 0 "0")) = some e →
      (questionCorrect .calculation sol sa = true ↔
        |s - e| ≤ sol.tolerance.getD (1/100)))
  ∧ (∀ (sol : Solution) (sa : StudentAnswer) (ss : String),
      sa.answer = some (.nonNum ss) →
      questionCorrect .calculation sol sa = false)
  ∧ questionCorrect .calculation
      { answer := some (.num 4 "4"), tolerance := some (1/10) }
      { answer := some (.num (79/20) "3.95") } = true
  ∧ questionCorrect .calculation
      { answer := some (.num 4 "4"), tolerance := some (1/10) }
      { answer := some (.num (19/5) "3.8") } = false := by
  have hnum : ∀ (sol : Solution) (sa : StudentAnswer) (s : ℚ) (ss : String) (e : ℚ),
      sa.answer = some (.num s ss) →
      pyFloat (sol.answer.getD (.num 0 "0")) = some e →
      (questionCorrect .calculation sol sa = true ↔
        |s - e| ≤ sol.tolerance.getD (1/100)) := by
    intro sol sa s ss e hsa hsol
    have h1 : pyFloat (sa.answer.getD (.num 0 "0")) = some s := by rw [hsa]; rfl
    simp only [questionCorrect, h1, hsol, decide_eq_true_eq]
  refine ⟨hnum, ?_, ?_, ?_⟩
  · intro sol sa ss hsa
    have h1 : pyFloat (sa.answer.getD (.num 0 "0")) = none := by rw [hsa]; rfl
    simp only [questionCorrect, h1]
  · have h := hnum { answer := some (.num 4 "4"), tolerance := some (1/10) }
      { answer := some (.num (79/20) "3.95") } (79/20) "3.95" 4 rfl rfl
    rw [h, Option.getD_some, show (79/20 : ℚ) - 4 = -(1/20) by norm_num, abs_neg,
      abs_of_nonneg (by norm_num : (0:ℚ) ≤ 1/20)]
    norm_num
  · have h := hnum { answer := some (.num 4 "4"), tolerance := some (1/10) }
      { answer := some (.num (19/5) "3.8") } (19/5) "3.8" 4 rfl rfl
    rw [Bool.eq_false_iff, Ne, h, Option.getD_some,
      show (19/5 : ℚ) - 4 = -(1/5) by norm_num, abs_neg,
      abs_of_nonneg (by norm_num : (0:ℚ) ≤ 1/5)]
    norm_num

/-- Witness for C5: a parsed submission equal to the expected value is
accepted under the default tolerance. -/
theorem calculation_tolerance_spec_witness :
    questionCorrect .calculation { answer := some (.num 2 "2") }
      { answer := some (.num 2 "2") } = true := by
  rw [calculation_tolerance_spec.1 { answer := some (.num 2 "2") }
      { answer := some (.num 2 "2") } 2 "2" 2 rfl rfl,
    sub_self, abs_zero, Option.getD_none]
  norm_num

/-- C10: in calculation grading, an answer object with no `answer` key is
graded as the numeric value `0` (the `.get('answer', 0)` default): it counts
correct exactly when `|0 - expected| ≤ tolerance`, so with a nonnegative
tolerance it is correct for every question whose expected answer is `0`. -/
theorem missing_answer_graded_as_zero :
    (∀ (sol : Solution) (sa : StudentAnswer) (e : ℚ),
      sa.answer = none →
      pyFloat (sol.answer.getD (.num 0 "0")) = some e →
      (questionCorrect .calculation sol sa = true ↔
        |(0 : ℚ) - e| ≤ sol.tolerance.getD (1/100)))
  ∧ (∀ (sol : Solution) (sa : StudentAnswer) (s : String),
      sa.answer = none → sol.answer = some (.num 0 s) →
      0 ≤ sol.tolerance.getD (1/100) →
      questionCorrect .calculation sol sa = true) := by
  have hmain : ∀ (sol : Solution) (sa : StudentAnswer) (e : ℚ),
      sa.answer = none →
      pyFloat (sol.answer.getD (.num 0 "0")) = some e →
      (questionCorrect .calculation sol sa = true ↔
        |(0 : ℚ) - e| ≤ sol.tolerance.getD (1/100)) := by
    intro sol sa e hsa hsol
    have h1 : pyFloat (sa.answer.getD (.num 0 "0")) = some 0 := by rw [hsa]; rfl
    simp only [questionCorrect, h1, hsol, decide_eq_true_eq]
  refine ⟨hmain, ?_⟩
  intro sol sa s hsa hsol htol
  refine (hmain sol sa 0 hsa ?_).mpr (by simpa using htol)
  rw [hsol]; rfl

/-- Witness for C10: with expected answer `0` and no tolerance given, an
answer object lacking the `answer` key is graded correct. -/
theorem missing_answer_graded_as_zero_witness :
    questionCorrect .calculation { answer := some (.num 0 "0") } {} = true :=
  missing_answer_graded_as_zero.2 { answer := some (.num 0 "0") } {} "0"
    rfl rfl (by rw [Option.getD_none]; norm_num)

/-! ## Attempt state machine (`Progress` model and `ProgressService`) -/

/-- The `progress_status` enum of the `progress` table. -/
inductive Status
  | not_started | in_progress | completed | submitted
  deriving DecidableEq, Repr

/-- The fields of a `Progress` row touched by the attempt lifecycle.
Timestamps are integer seconds. -/
structure Progress where
  student_id : Nat
  exercise_id : Nat
  score : Option ℚ := none
  status : Status := .not_started
  attempts : Nat := 0
  time_spent : Option Nat := none
  answers : List StudentAnswer := []
  started_at : Option Int := none
  completed_at : Option Int := none
  submitted_at : Option Int := none
  updated_at : Int := 0
  deriving DecidableEq, Repr

/-- Embedding of `Progress.start_attempt` (`app/models.py`): from `not_started` move to
`in_progress`, stamp `started_at` and increment `attempts`; from `completed`
(a retake) move to `in_progress` and increment `attempts`; any other status
is left unchanged.  `updated_at` is always refreshed. -/
def Progress.start_attempt (now : Int) (p : Progress) : Progress :=
  let p' :=
    if p.status = .not_started then
      { p with status := .in_progress, started_at := some now, attempts := p.attempts + 1 }
    else if p.status = .completed then
      { p with status := .in_progress, attempts := p.attempts + 1 }
    else p
  { p' with updated_at := now }

/-- Embedding of `Progress.submit_answers` (`app/models.py`): overwrite `answers`, set
status `submitted` and stamp `submitted_at`/`completed_at`; then, when
`auto_score` holds and the related exercise row resolves, store the computed
score and set status `completed`. -/
def Progress.submit_answers (now : Int) (exercise : Option Exercise)
    (answers : List StudentAnswer) (auto_score : Bool) (p : Progress) : Progress :=
  let p' := { p with answers := answers, status := Status.submitted,
                     submitted_at := some now, completed_at := some now }
  let p'' :=
    if auto_score then
      match exercise with
      | some ex => { p' with
          score := some (calculate_score ex answers)
          status := Status.completed }
      | none => p'
    else p'
  { p'' with updated_at := now }

/-- An `exercises` table row as the services query it. -/
structure ExerciseRow where
  id : Nat
  ex : Exercise
  is_published : Bool
  deriving DecidableEq, Repr

/-- The slice of the relational store the `ProgressService` operations read
and write. -/
structure DB where
  exercises : List ExerciseRow := []
  progress : List Progress := []
  deriving DecidableEq, Repr

/-- The query `Exercise.query.filter(id == eid, is_published == True).first()`. -/
def DB.findPublishedExercise (db : DB) (eid : Nat) : Option ExerciseRow :=
  db.exercises.find? fun r => r.id == eid && r.is_published

/-- Resolution of the `Progress.exercise` relationship through the
`exercise_id` foreign key. -/
def DB.findExercise (db : DB) (eid : Nat) : Option ExerciseRow :=
  db.exercises.find? fun r => r.id == eid

/-- The query `Progress.query.filter(student_id == sid, exercise_id == eid).first()`. -/
def DB.findProgress (db : DB) (sid eid : Nat) : Option Progress :=
  db.progress.find? fun p => p.student_id == sid && p.exercise_id == eid

/-- In-place mutation of the row the session fetched: apply `f` to the first
row matching the pair and leave the rest untouched. -/
def updateFirstProgress (sid eid : Nat) (f : Progress → Progress) :
    List Progress → List Progress
  | [] => []
  | p :: ps =>
    if p.student_id == sid && p.exercise_id == eid then f p :: ps
    else p :: updateFirstProgress sid eid f ps

/-- A freshly constructed `Progress(student_id=…, exercise_id=…)` with the
column defaults. -/
def newProgress (sid eid : Nat) : Progress :=
  { student_id := sid, exercise_id := eid }

/-- Embedding of `ProgressService.start_exercise` (`app/services/exercise.py`): require a
published exercise, get-or-create the pair's `Progress` row, then run
`start_attempt` on it and commit. -/
def start_exercise (now : Int) (db : DB) (student_id exercise_id : Nat) :
    Except String DB :=
  match db.findPublishedExercise exercise_id with
  | none => .error "Exercise not found or not published"
  | some _ =>
    match db.findProgress student_id exercise_id with
    | some _ =>
        let updated := updateFirstProgress student_id exercise_id
          (Progress.start_attempt now) db.progress
        .ok { db with progress := updated }
    | none =>
        let appended :=
          db.progress ++ [(newProgress student_id exercise_id).start_attempt now]
        .ok { db with progress := appended }

/-- The mutation `ProgressService.submit_answers` performs on the fetched
row: set `time_spent` when the argument was given, then run the model's
`submit_answers` with `auto_score=True`. -/
def submitUpdate (now : Int) (exo : Option Exercise) (answers : List StudentAnswer)
    (time_spent : Option Nat) (q : Progress) : Progress :=
  let q' := match time_spent with
            | some t => { q with time_spent := some t }
            | none => q
  q'.submit_answers now exo answers true

/-- Embedding of `ProgressService.submit_answers` (`app/services/exercise.py`): require an
existing `Progress` row whose status is `in_progress` or `completed`, then
apply `submitUpdate` to it and commit. -/
def submit_answers_service (now : Int) (db : DB) (student_id exercise_id : Nat)
    (answers : List StudentAnswer) (time_spent : Option Nat) : Except String DB :=
  match db.findProgress student_id exercise_id with
  | none => .error "Progress record not found. Start the exercise first."
  | some p =>
    if p.status = .in_progress ∨ p.status = .completed then
      let updated := updateFirstProgress student_id exercise_id
        (submitUpdate now ((db.findExercise exercise_id).map (·.ex)) answers time_spent)
        db.progress
      .ok { db with progress := updated }
    else .error "Cannot submit answers for this exercise state"

/-- Number of `Progress` rows stored for the pair `(sid, eid)`. -/
def countPair (l : List Progress) (sid eid : Nat) : Nat :=
  l.countP fun p => p.student_id == sid && p.exercise_id == eid

/-- The uniqueness invariant backing the `unique_student_exercise`
constraint of the `progress` table. -/
def UniquePairs (l : List Progress) : Prop :=
  ∀ sid eid, countPair l sid eid ≤ 1

/-! ### Helper lemmas on the progress store -/

theorem find?_updateFirstProgress (sid eid : Nat) (f : Progress → Progress)
    (hf : ∀ p, (f p).student_id = p.student_id ∧ (f p).exercise_id = p.exercise_id)
    (l : List Progress) :
    (updateFirstProgress sid eid f l).find?
        (fun p => p.student_id == sid && p.exercise_id == eid) =
      (l.find? (fun p => p.student_id == sid && p.exercise_id == eid)).map f := by
  induction l with
  | nil => rfl
  | cons p ps ih =>
    by_cases h : (p.student_id == sid && p.exercise_id == eid) = true
    · have hk : ((f p).student_id == sid && (f p).exercise_id == eid) = true := by
        rw [(hf p).1, (hf p).2]; exact h
      simp [updateFirstProgress, h, List.find?, hk]
    · simp [updateFirstProgress, h, List.find?, ih]

theorem countPair_updateFirstProgress (sid' eid' : Nat) (f : Progress → Progress)
    (hf : ∀ p, (f p).student_id = p.student_id ∧ (f p).exercise_id = p.exercise_id)
    (l : List Progress) (sid eid : Nat) :
    countPair (updateFirstProgress sid' eid' f l) sid eid = countPair l sid eid := by
  induction l with
  | nil => rfl
  | cons p ps ih =>
    by_cases h : (p.student_id == sid' && p.exercise_id == eid') = true
    · simp [updateFirstProgress, h, countPair, List.countP_cons, (hf p).1, (hf p).2]
    · simp only [updateFirstProgress, h, if_false, Bool.false_eq_true]
      simp [countPair, List.countP_cons] at ih ⊢
      omega

theorem countPair_eq_zero_of_find?_none {l : List Progress} {sid eid : Nat}
    (h : l.find? (fun p => p.student_id == sid && p.exercise_id == eid) = none) :
    countPair l sid eid = 0 := by
  refine List.countP_eq_zero.mpr ?_
  intro p hp
  exact List.find?_eq_none.mp h p hp

theorem countPair_pos_of_find?_some {l : List Progress} {sid eid : Nat} {p : Progress}
    (h : l.find? (fun p => p.student_id == sid && p.exercise_id == eid) = some p) :
    1 ≤ countPair l sid eid := by
  have hmem := List.mem_of_find?_eq_some h
  have hkey := List.find?_some h
  exact List.countP_pos_iff.mpr ⟨p, hmem, hkey⟩

theorem countPair_append_single (l : List Progress) (p : Progress) (sid eid : Nat) :
    countPair (l ++ [p]) sid eid =
      countPair l sid eid +
        (if (p.student_id == sid && p.exercise_id == eid) = true then 1 else 0) := by
  simp [countPair, List.countP_append, List.countP_cons]

theorem find?_append_of_none {α} (p : α → Bool) {l₁ : List α} (l₂ : List α)
    (h : l₁.find? p = none) : (l₁ ++ l₂).find? p = l₂.find? p := by
  induction l₁ with
  | nil => rfl
  | cons a l ih =>
    by_cases hpa : p a = true
    · rw [List.find?_cons_of_pos _ hpa] at h
      exact absurd h (by simp)
    · have hpa' : ¬p a = true := hpa
      rw [List.find?_cons_of_neg _ hpa'] at h
      rw [List.cons_append, List.find?_cons_of_neg _ hpa']
      exact ih h

theorem start_attempt_keeps_key (now : Int) (p : Progress) :
    (p.start_attempt now).student_id = p.student_id ∧
      (p.start_attempt now).exercise_id = p.exercise_id := by
  unfold Progress.start_attempt
  by_cases h1 : p.status = .not_started <;> by_cases h2 : p.status = .completed <;>
    simp [h1, h2]

theorem submit_answers_keeps_key (now : Int) (exercise : Option Exercise)
    (answers : List StudentAnswer) (auto : Bool) (p : Progress) :
    (p.submit_answers now exercise answers auto).student_id = p.student_id ∧
      (p.submit_answers now exercise answers auto).exercise_id = p.exercise_id := by
  unfold Progress.submit_answers
  rcases exercise with _ | ex <;> rcases auto with _ | _ <;> simp

/-- C3: `start_exercise` keeps the `(student_id, exercise_id)` uniqueness
invariant and leaves exactly one row for the started pair, so two `start`
calls for the same pair never produce two Attempt rows. -/
theorem start_exercise_unique_row :
    (∀ (now : Int) (db : DB) (sid eid : Nat) (db' : DB),
      UniquePairs db.progress → start_exercise now db sid eid = .ok db' →
      UniquePairs db'.progress ∧ countPair db'.progress sid eid = 1)
  ∧ (∀ (now now' : Int) (db : DB) (sid eid : Nat) (db' db'' : DB),
      UniquePairs db.progress →
      start_exercise now db sid eid = .ok db' →
      start_exercise now' db' sid eid = .ok db'' →
      countPair db''.progress sid eid = 1) := by
  have main : ∀ (now : Int) (db : DB) (sid eid : Nat) (db' : DB),
      UniquePairs db.progress → start_exercise now db sid eid = .ok db' →
      UniquePairs db'.progress ∧ countPair db'.progress sid eid = 1 := by
    intro now db sid eid db' hu h
    unfold start_exercise at h
    rcases hfe : db.findPublishedExercise eid with _ | r <;> rw [hfe] at h
    · exact absurd h (by simp)
    rcases hfp : db.findProgress sid eid with _ | p <;> rw [hfp] at h <;>
      simp only [Except.ok.injEq] at h <;> subst h
    · -- no row yet: one row for the pair is appended
      have hz : countPair db.progress sid eid = 0 := countPair_eq_zero_of_find?_none hfp
      have hkeynew : (((newProgress sid eid).start_attempt now).student_id = sid) ∧
          (((newProgress sid eid).start_attempt now).exercise_id = eid) :=
        start_attempt_keeps_key now (newProgress sid eid)
      constructor
      · intro s e
        rw [countPair_append_single]
        by_cases hk : ((((newProgress sid eid).start_attempt now).student_id == s) &&
            (((newProgress sid eid).start_attempt now).exercise_id == e)) = true
        · have hand := (Bool.and_eq_true _ _).mp hk
          have hs : sid = s := by
            have h1 := eq_of_beq hand.1
            rw [hkeynew.1] at h1
            exact h1
          have he : eid = e := by
            have h2 := eq_of_beq hand.2
            rw [hkeynew.2] at h2
            exact h2
          subst hs; subst he
          rw [hz]
          simp [hk]
        · have : ¬(((newProgress sid eid).start_attempt now).student_id == s &&
              (((newProgress sid eid).start_attempt now).exercise_id == e)) = true := hk
          simp only [this, if_false]
          simpa using hu s e
      · rw [countPair_append_single, hz]
        simp [hkeynew.1, hkeynew.2]
    · -- an existing row is updated in place
      have hcnt := countPair_updateFirstProgress sid eid (Progress.start_attempt now)
        (start_attempt_keeps_key now) db.progress
      constructor
      · intro s e
        rw [hcnt]
        exact hu s e
      · rw [hcnt sid eid]
        exact Nat.le_antisymm (hu sid eid) (countPair_pos_of_find?_some hfp)
  refine ⟨main, ?_⟩
  intro now now' db sid eid db' db'' hu h1 h2
  exact ((main now' db' sid eid db'' (main now db sid eid db' hu h1).1 h2)).2

/-- A store holding only the published demo exercise, before any attempt. -/
def freshDB : DB :=
  { exercises := [{ id := 1, ex := demoMC, is_published := true }] }

/-- The store `freshDB` after `start_exercise 7 _ 1 1`. -/
def freshStarted : DB :=
  { freshDB with progress := [(newProgress 1 1).start_attempt 7] }

/-- Witness for C3: starting a fresh pair on an empty store yields the
invariant and a single row for the pair. -/
theorem start_exercise_unique_row_witness :
    UniquePairs freshStarted.progress ∧ countPair freshStarted.progress 1 1 = 1 :=
  start_exercise_unique_row.1 7 freshDB 1 1 freshStarted
    (fun sid eid => by simp [countPair, freshDB]) rfl

/-- An attempt row that is currently `in_progress` with one recorded attempt. -/
def c4Row : Progress :=
  { student_id := 1, exercise_id := 1, status := .in_progress, attempts := 1
    started_at := some 0 }

/-- A store holding the published demo exercise and the in-progress row. -/
def c4DB : DB :=
  { exercises := [{ id := 1, ex := demoMC, is_published := true }]
    progress := [c4Row] }

/-- C4 counterexample: a `start` call on a pair whose Attempt is already
`in_progress` succeeds but leaves the `attempts` counter at 1 instead of
increasing it to 2. -/
theorem start_attempts_counterexample :
    start_exercise 5 c4DB 1 1 =
        .ok { c4DB with progress := [{ c4Row with updated_at := 5 }] }
  ∧ c4Row.attempts = 1
  ∧ ({ c4Row with updated_at := 5 } : Progress).attempts = 1 :=
  ⟨rfl, rfl, rfl⟩

/-- C4 amended: `start_attempt` increments `attempts` by exactly 1 precisely
when the prior status is `not_started` or `completed` (first start and retry
after completion) and leaves it unchanged otherwise (already `in_progress`,
or `submitted`); at the service level a first `start` creates the row with
`attempts = 1` and a later `start` applies `start_attempt` to the stored
row. -/
theorem start_attempts_increment :
    (∀ (now : Int) (p : Progress),
      (p.start_attempt now).attempts =
        if p.status = .not_started ∨ p.status = .completed
        then p.attempts + 1 else p.attempts)
  ∧ (∀ (now : Int) (db : DB) (sid eid : Nat) (db' : DB),
      start_exercise now db sid eid = .ok db' →
      (db.findProgress sid eid = none →
        db'.findProgress sid eid = some ((newProgress sid eid).start_attempt now) ∧
        ((newProgress sid eid).start_attempt now).attempts = 1)
      ∧ (∀ p, db.findProgress sid eid = some p →
          db'.findProgress sid eid = some (p.start_attempt now))) := by
  constructor
  · intro now p
    unfold Progress.start_attempt
    by_cases h1 : p.status = .not_started <;> by_cases h2 : p.status = .completed <;>
      simp [h1, h2]
  · intro now db sid eid db' h
    unfold start_exercise at h
    rcases hfe : db.findPublishedExercise eid with _ | r <;> rw [hfe] at h
    · exact absurd h (by simp)
    rcases hfp : db.findProgress sid eid with _ | p <;> rw [hfp] at h <;>
      simp only [Except.ok.injEq] at h <;> subst h
    · constructor
      · intro _
        constructor
        · show (db.progress ++ [(newProgress sid eid).start_attempt now]).find? _ = _
          rw [find?_append_of_none _ _ hfp]
          have hkey := start_attempt_keeps_key now (newProgress sid eid)
          have : ((((newProgress sid eid).start_attempt now).student_id == sid) &&
              (((newProgress sid eid).start_attempt now).exercise_id == eid)) = true := by
            rw [hkey.1, hkey.2]
            simp [newProgress]
          exact List.find?_cons_of_pos _ this
        · rfl
      · intro p hp
        exact Option.noConfusion hp
    · constructor
      · intro hnone
        exact Option.noConfusion hnone
      · intro q hq
        have hpq : p = q := Option.some.inj hq
        subst hpq
        show (updateFirstProgress sid eid (Progress.start_attempt now) db.progress).find? _ = _
        rw [find?_updateFirstProgress sid eid _ (start_attempt_keeps_key now)]
        have hfp' : db.progress.find?
            (fun p => p.student_id == sid && p.exercise_id == eid) = some p := hfp
        rw [hfp']
        rfl

/-- Witness for C4 (amended): a first `start` on a fresh pair stores a row
with `attempts = 1`. -/
theorem start_attempts_increment_witness :
    freshStarted.findProgress 1 1 = some ((newProgress 1 1).start_attempt 7) ∧
      ((newProgress 1 1).start_attempt 7).attempts = 1 :=
  (start_attempts_increment.2 7 freshDB 1 1 freshStarted rfl).1 rfl

theorem submitUpdate_keeps_key (now : Int) (exo : Option Exercise)
    (answers : List StudentAnswer) (ts : Option Nat) (q : Progress) :
    (submitUpdate now exo answers ts q).student_id = q.student_id ∧
      (submitUpdate now exo answers ts q).exercise_id = q.exercise_id := by
  unfold submitUpdate
  rcases ts with _ | t <;> rcases exo with _ | ex <;> simp [Progress.submit_answers]

theorem submitUpdate_fields (now : Int) (ex : Exercise)
    (answers : List StudentAnswer) (ts : Option Nat) (q : Progress) :
    (submitUpdate now (some ex) answers ts q).score =
        some (calculate_score ex answers) ∧
      (submitUpdate now (some ex) answers ts q).status = .completed ∧
      (submitUpdate now (some ex) answers ts q).submitted_at = some now ∧
      (submitUpdate now (some ex) answers ts q).completed_at = some now ∧
      (submitUpdate now (some ex) answers ts q).answers = answers := by
  unfold submitUpdate
  rcases ts with _ | t <;> simp [Progress.submit_answers]

/-- C2: `submit_answers_service` succeeds exactly when an Attempt row exists
for the pair with status `in_progress` or `completed`; with no row it fails
with the "start first" error; and on success (the exercise row resolving
through the foreign key) the stored row carries the scoring-engine result as
`score`, status `completed`, `submitted_at` and `completed_at` stamped `now`,
and the submitted answers verbatim. -/
theorem submit_answers_service_spec :
    (∀ (now : Int) (db : DB) (sid eid : Nat) (answers : List StudentAnswer)
        (ts : Option Nat),
      (∃ db', submit_answers_service now db sid eid answers ts = .ok db') ↔
        ∃ p, db.findProgress sid eid = some p ∧
          (p.status = .in_progress ∨ p.status = .completed))
  ∧ (∀ (now : Int) (db : DB) (sid eid : Nat) (answers : List StudentAnswer)
        (ts : Option Nat),
      db.findProgress sid eid = none →
      submit_answers_service now db sid eid answers ts =
        .error "Progress record not found. Start the exercise first.")
  ∧ (∀ (now : Int) (db : DB) (sid eid : Nat) (answers : List StudentAnswer)
        (ts : Option Nat) (db' : DB) (r : ExerciseRow),
      submit_answers_service now db sid eid answers ts = .ok db' →
      db.findExercise eid = some r →
      ∃ q, db'.findProgress sid eid = some q ∧
        q.score = some (calculate_score r.ex answers) ∧
        q.status = .completed ∧
        q.submitted_at = some now ∧ q.completed_at = some now ∧
        q.answers = answers) := by
  refine ⟨?_, ?_, ?_⟩
  · intro now db sid eid answers ts
    unfold submit_answers_service
    rcases hfp : db.findProgress sid eid with _ | p
    · simp
    · by_cases hst : p.status = .in_progress ∨ p.status = .completed
      · simp [hst]
      · simp [hst]
  · intro now db sid eid answers ts h
    simp only [submit_answers_service, h]
  · intro now db sid eid answers ts db' r h hex
    unfold submit_answers_service at h
    rcases hfp : db.findProgress sid eid with _ | p <;> rw [hfp] at h <;>
      dsimp only at h
    · exact absurd h (fun hcontra => Except.noConfusion hcontra)
    by_cases hst : p.status = .in_progress ∨ p.status = .completed
    · rw [if_pos hst] at h
      simp only [Except.ok.injEq] at h
      subst h
      have hmap : (db.findExercise eid).map (·.ex) = some r.ex := by
        rw [hex]; rfl
      refine ⟨submitUpdate now ((db.findExercise eid).map (·.ex)) answers ts p, ?_, ?_⟩
      · show (updateFirstProgress sid eid _ db.progress).find? _ = _
        rw [find?_updateFirstProgress sid eid _
          (fun q => submitUpdate_keeps_key now _ answers ts q)]
        have hfp' : db.progress.find?
            (fun p => p.student_id == sid && p.exercise_id == eid) = some p := hfp
        rw [hfp']
        rfl
      · rw [hmap]
        exact submitUpdate_fields now r.ex answers ts p
    · rw [if_neg hst] at h
      exact absurd h (fun hcontra => Except.noConfusion hcontra)

/-- The store `c4DB` after a successful submission of the empty answer list
at time 5. -/
def c2Submitted : DB :=
  { c4DB with progress := [{ c4Row with
      status := Status.completed
      score := some 0
      submitted_at := some 5
      completed_at := some 5
      updated_at := 5 }] }

/-- Witness for C2: submitting on the in-progress demo row succeeds and
stores score, completed status, timestamps and the answers. -/
theorem submit_answers_service_spec_witness :
    ∃ q, c2Submitted.findProgress 1 1 = some q ∧
      q.score = some (calculate_score demoMC []) ∧
      q.status = .completed ∧
      q.submitted_at = some 5 ∧ q.completed_at = some 5 ∧
      q.answers = [] :=
  submit_answers_service_spec.2.2 5 c4DB 1 1 [] none c2Submitted
    { id := 1, ex := demoMC, is_published := true } rfl rfl

/-! ## Aggregation engine -/

/-- The student-scope average of `AnalyticsService.get_student_analytics`:
mean score over records with `status == 'completed'` and non-null score,
`0` when no such record exists. -/
def student_average_score (records : List Progress) : ℚ :=
  let completed_with_scores :=
    records.filter fun p => p.status == Status.completed && p.score.isSome
  if completed_with_scores.isEmpty then 0
  else (completed_with_scores.map fun p => p.score.getD 0).sum /
    (completed_with_scores.length : ℚ)

/-- The class-scope average of `AnalyticsService.get_class_analytics`:
mean over `[p.score for p in progress_records if p.score is not None]`
(no status filter), `0` when that list is empty. -/
def class_average_score (records : List Progress) : ℚ :=
  let scores := records.filterMap fun p => p.score
  if scores.isEmpty then 0 else scores.sum / (scores.length : ℚ)

/-- The platform average of `DashboardService._get_platform_statistics`:
SQL `AVG(score)` over completed rows with non-null score (`None` on the
empty set), then the truthiness guard `round(avg_score, 2) if avg_score
else 0` (rounding to two decimals is presentation and omitted here). -/
def platform_average_score (records : List Progress) : ℚ :=
  let scores := (records.filter fun p =>
    p.status == Status.completed && p.score.isSome).filterMap fun p => p.score
  let avg_score : Option ℚ :=
    if scores.isEmpty then none else some (scores.sum / (scores.length : ℚ))
  match avg_score with
  | some a => if a = 0 then 0 else a
  | none => 0

/-- Modelled from the spec: `average_score` over attempts with
`status == completed` and non-null `score`, `0` if no such attempts exist.
Stated from the claim's words, for comparison with the code aggregators. -/
def claimed_average_score (records : List Progress) : ℚ :=
  let scores := records.filterMap fun p =>
    if p.status == Status.completed then p.score else none
  if scores.isEmpty then 0 else scores.sum / (scores.length : ℚ)

theorem completed_scores_map_eq (records : List Progress) :
    ((records.filter fun p => p.status == Status.completed && p.score.isSome).map
        fun p => p.score.getD 0) =
      records.filterMap fun p =>
        if p.status == Status.completed then p.score else none := by
  induction records with
  | nil => rfl
  | cons p ps ih =>
    rcases hs : p.score with _ | q <;>
      by_cases hc : p.status = Status.completed <;>
        simp [List.filter_cons, List.filterMap_cons, hs, hc, ih]

theorem completed_scores_filterMap_eq (records : List Progress) :
    ((records.filter fun p => p.status == Status.completed && p.score.isSome).filterMap
        fun p => p.score) =
      records.filterMap fun p =>
        if p.status == Status.completed then p.score else none := by
  induction records with
  | nil => rfl
  | cons p ps ih =>
    rcases hs : p.score with _ | q <;>
      by_cases hc : p.status = Status.completed <;>
        simp [List.filter_cons, List.filterMap_cons, hs, hc, ih]

theorem filterMap_score_of_all_completed (records : List Progress)
    (h : ∀ p ∈ records, p.score ≠ none → p.status = Status.completed) :
    (records.filterMap fun p => p.score) =
      records.filterMap fun p =>
        if p.status == Status.completed then p.score else none := by
  induction records with
  | nil => rfl
  | cons p ps ih =>
    have hps : ∀ q ∈ ps, q.score ≠ none → q.status = Status.completed :=
      fun q hq => h q (List.mem_cons_of_mem p hq)
    rcases hs : p.score with _ | q
    · by_cases hc : p.status = Status.completed <;>
        simp [List.filterMap_cons, hs, hc, ih hps]
    · have hc : p.status = Status.completed :=
        h p (List.mem_cons_self p ps)
          (by rw [hs]; exact fun hcontra => Option.noConfusion hcontra)
      simp [List.filterMap_cons, hs, hc, ih hps]

/-- A scored attempt row that is not completed. -/
def c6Row : Progress :=
  { student_id := 1, exercise_id := 1, status := .in_progress, score := some 50 }

/-- C6 counterexample: the class-scope aggregation averages a non-completed
attempt's score (yielding 50), while the claimed completed-only average of
the same record set is 0. -/
theorem class_average_counterexample :
    class_average_score [c6Row] = 50 ∧ claimed_average_score [c6Row] = 0 := by
  constructor
  · have h1 : ([c6Row].filterMap fun p => p.score) = [50] := rfl
    simp only [class_average_score, h1]
    norm_num [List.isEmpty_cons, List.sum_cons, List.sum_nil]
  · rfl

/-- C6 amended: the student-scope and platform-scope averages are over
completed attempts with non-null score (0 when none exist), but the
class-scope average is over all attempts with non-null score regardless of
status; it agrees with the claimed completed-only value exactly when every
scored attempt is completed.  All three scopes yield 0 on the empty set. -/
theorem average_score_amended :
    (∀ records, student_average_score records = claimed_average_score records)
  ∧ (∀ records, platform_average_score records = claimed_average_score records)
  ∧ (∀ records, (∀ p ∈ records, p.score ≠ none → p.status = Status.completed) →
      class_average_score records = claimed_average_score records)
  ∧ student_average_score [] = 0 ∧ class_average_score [] = 0 ∧
    platform_average_score [] = 0 := by
  refine ⟨?_, ?_, ?_, rfl, rfl, rfl⟩
  · intro records
    simp only [student_average_score, claimed_average_score]
    have hmap := completed_scores_map_eq records
    have hemp : (records.filter fun p =>
        p.status == Status.completed && p.score.isSome).isEmpty
        = (records.filterMap fun p =>
            if p.status == Status.completed then p.score else none).isEmpty := by
      rw [← hmap]
      cases records.filter fun p => p.status == Status.completed && p.score.isSome <;>
        simp
    have hlen : ((records.filter fun p =>
        p.status == Status.completed && p.score.isSome).length : ℚ)
        = ((records.filterMap fun p =>
            if p.status == Status.completed then p.score else none).length : ℚ) := by
      rw [← hmap, List.length_map]
    rw [hemp, hmap, hlen]
  · intro records
    simp only [platform_average_score, claimed_average_score]
    rw [completed_scores_filterMap_eq records]
    by_cases h : (records.filterMap fun p =>
        if p.status == Status.completed then p.score else none).isEmpty
    · rw [if_pos h, if_pos h]
    · rw [if_neg h, if_neg h]
      dsimp only
      by_cases hz : ((records.filterMap fun p =>
          if p.status == Status.completed then p.score else none).sum /
            ((records.filterMap fun p =>
              if p.status == Status.completed then p.score else none).length : ℚ)) = 0
      · rw [if_pos hz, hz]
      · rw [if_neg hz]
  · intro records h
    simp only [class_average_score, claimed_average_score]
    rw [filterMap_score_of_all_completed records h]

/-- A completed attempt row with score 80. -/
def c7Done : Progress :=
  { student_id := 1, exercise_id := 1, status := .completed, score := some 80 }

/-- An attempt row still in progress. -/
def c7Doing : Progress :=
  { student_id := 1, exercise_id := 2, status := .in_progress }

/-- Witness for C6 (amended): on a record set whose only scored attempt is
completed, the class average agrees with the claimed completed-only value. -/
theorem average_score_amended_witness :
    class_average_score [c7Done] = claimed_average_score [c7Done] :=
  average_score_amended.2.2.1 [c7Done] (by
    intro p hp _
    rw [List.mem_singleton] at hp
    subst hp
    rfl)

/-- The student-scope completion rate of `get_student_analytics`:
`(completed_exercises / total_exercises * 100) if total_exercises > 0 else 0`. -/
def student_completion_rate (records : List Progress) : ℚ :=
  let total_exercises := records.length
  let completed_exercises :=
    (records.filter fun p => p.status == Status.completed).length
  if 0 < total_exercises then
    ((completed_exercises : ℚ) / (total_exercises : ℚ)) * 100
  else 0

/-- The platform completion rate of `_get_platform_statistics`:
`(total_completed / total_progress * 100) if total_progress > 0 else 0`. -/
def platform_completion_rate (records : List Progress) : ℚ :=
  let total_progress := records.length
  let total_completed :=
    (records.filter fun p => p.status == Status.completed).length
  if 0 < total_progress then
    ((total_completed : ℚ) / (total_progress : ℚ)) * 100
  else 0

/-- Modelled from the spec: `completion_rate = completed_count /
total_attempts_count`, `0` if the total is `0`.  Stated from the claim's
words, for comparison with the code rates. -/
def claimed_completion_rate (records : List Progress) : ℚ :=
  if records.length = 0 then 0
  else ((records.filter fun p => p.status == Status.completed).length : ℚ) /
    (records.length : ℚ)

/-- C7 counterexample: on one completed and one in-progress attempt the code
reports 50 (a percentage), not the claimed ratio `1/2`. -/
theorem completion_rate_counterexample :
    student_completion_rate [c7Done, c7Doing] = 50 ∧
      claimed_completion_rate [c7Done, c7Doing] = 1/2 ∧
      ¬ student_completion_rate [c7Done, c7Doing] =
          claimed_completion_rate [c7Done, c7Doing] := by
  have hfil : ([c7Done, c7Doing].filter fun p => p.status == Status.completed) =
      [c7Done] := rfl
  have h1 : student_completion_rate [c7Done, c7Doing] = 50 := by
    simp only [student_completion_rate, hfil]
    norm_num
  have h2 : claimed_completion_rate [c7Done, c7Doing] = 1/2 := by
    simp only [claimed_completion_rate, hfil]
    norm_num
  refine ⟨h1, h2, ?_⟩
  rw [h1, h2]
  norm_num

/-- C7 amended: at every modelled scope the reported `completion_rate` is the
percentage `100 * (completed_count / total_attempts_count)`, still `0`
(never an error or NaN) on the empty attempt set. -/
theorem completion_rate_amended :
    (∀ records, student_completion_rate records =
      100 * claimed_completion_rate records)
  ∧ (∀ records, platform_completion_rate records =
      100 * claimed_completion_rate records)
  ∧ student_completion_rate [] = 0 ∧ platform_completion_rate [] = 0 := by
  have key : ∀ records : List Progress,
      (if 0 < records.length then
        (((records.filter fun p => p.status == Status.completed).length : ℚ) /
          (records.length : ℚ)) * 100
      else 0) = 100 * claimed_completion_rate records := by
    intro records
    simp only [claimed_completion_rate]
    by_cases h : records.length = 0
    · rw [if_neg (by rw [h]; exact Nat.lt_irrefl 0), if_pos h, mul_zero]
    · rw [if_pos (Nat.pos_of_ne_zero h), if_neg h, mul_comm]
  exact ⟨fun records => key records, fun records => key records, rfl, rfl⟩

/-- SQL `AVG(Progress.score)` over one student's rows as grouped by
`ClassService._get_struggling_students`: `NULL` scores are skipped and the
aggregate is `None` when no score exists. -/
def allScoresAvg (records : List Progress) : Option ℚ :=
  let scores := records.filterMap fun p => p.score
  if scores.isEmpty then none else some (scores.sum / (scores.length : ℚ))

/-- SQL `AVG(Progress.score)` over completed rows with non-null score as
queried by `DashboardService._get_struggling_students_for_professor`. -/
def completedScoresAvg (records : List Progress) : Option ℚ :=
  let scores := (records.filter fun p =>
    p.status == Status.completed && p.score.isSome).filterMap fun p => p.score
  if scores.isEmpty then none else some (scores.sum / (scores.length : ℚ))

/-- The `recent_activity` count of the professor dashboard: rows of any
status with `updated_at >= now - 7 days`. -/
def recentActivityCount (now : Int) (records : List Progress) : Nat :=
  (records.filter fun p => decide (now - 7 * 86400 ≤ p.updated_at)).length

/-- Embedding of the `ClassService._get_struggling_students` flag:
`(avg_score and avg_score < 60) or total_attempts < 3` with Python
truthiness on `avg_score` (both `None` and `0.0` are falsy). -/
def class_struggling_flag (records : List Progress) : Bool :=
  (match allScoresAvg records with
   | some a => decide (a ≠ 0) && decide (a < 60)
   | none => false) || decide (records.length < 3)

/-- Embedding of the `DashboardService._get_struggling_students_for_professor` flag:
`(avg_score and avg_score < 70) or recent_activity == 0`. -/
def professor_struggling_flag (now : Int) (records : List Progress) : Bool :=
  (match completedScoresAvg records with
   | some a => decide (a ≠ 0) && decide (a < 70)
   | none => false) || (recentActivityCount now records == 0)

/-- Modelled from the spec: a student is flagged iff their average completed
score is below 60, OR they have fewer than 3 attempts, OR they have no
completed attempt in the trailing 7 days.  Stated from the claim's words,
for comparison with the code flags. -/
def claimed_struggling_flag (now : Int) (records : List Progress) : Bool :=
  (match completedScoresAvg records with
   | some a => decide (a < 60)
   | none => false)
  || decide (records.length < 3)
  || (records.filter fun p => p.status == Status.completed &&
        (match p.completed_at with
         | some t => decide (now - 7 * 86400 ≤ t)
         | none => false)).isEmpty

/-- A completed attempt of student 1 on exercise `eid`, scored 65, completed
and updated at time 1000000. -/
def c9Row (eid : Nat) : Progress :=
  { student_id := 1, exercise_id := eid, status := .completed, score := some 65
    completed_at := some 1000000, updated_at := 1000000 }

/-- Three freshly completed attempts averaging 65. -/
def c9Demo : List Progress := [c9Row 1, c9Row 2, c9Row 3]

/-- C9 counterexample: a student with three completed attempts averaging 65,
all completed within the trailing 7 days, triggers none of the claim's three
conditions, yet the professor-dashboard code flags them (threshold 70). -/
theorem struggling_flag_counterexample :
    claimed_struggling_flag 1000000 c9Demo = false ∧
      professor_struggling_flag 1000000 c9Demo = true := by
  have havg : completedScoresAvg c9Demo = some 65 := by
    have hsc : ((c9Demo.filter fun p =>
        p.status == Status.completed && p.score.isSome).filterMap
          fun p => p.score) = [65, 65, 65] := rfl
    simp only [completedScoresAvg, hsc]
    norm_num [List.isEmpty_cons, List.sum_cons, List.sum_nil]
  constructor
  · have hrecent : (c9Demo.filter fun p => p.status == Status.completed &&
        (match p.completed_at with
         | some t => decide ((1000000 : Int) - 7 * 86400 ≤ t)
         | none => false)) = c9Demo := rfl
    simp only [claimed_struggling_flag, havg, hrecent]
    norm_num [c9Demo, List.isEmpty_cons]
  · simp only [professor_struggling_flag, havg]
    norm_num

/-- C9 amended: the class-management flag has only two triggers — nonzero
average over all scored attempts (any status) below 60, OR fewer than 3
attempts; the professor-dashboard flag has two different triggers — nonzero
average completed score below 70, OR zero attempts of any status updated in
the trailing 7 days.  Neither implements the claimed three-trigger rule. -/
theorem struggling_flag_amended :
    (∀ records, class_struggling_flag records = true ↔
      ((∃ a, allScoresAvg records = some a ∧ a ≠ 0 ∧ a < 60) ∨
        records.length < 3))
  ∧ (∀ (now : Int) (records : List Progress),
      professor_struggling_flag now records = true ↔
      ((∃ a, completedScoresAvg records = some a ∧ a ≠ 0 ∧ a < 70) ∨
        recentActivityCount now records = 0)) := by
  constructor
  · intro records
    unfold class_struggling_flag
    rcases h : allScoresAvg records with _ | a
    · simp [h]
    · simp [h]
  · intro now records
    unfold professor_struggling_flag
    rcases h : completedScoresAvg records with _ | a
    · simp [h]
    · simp [h]

/-! ## Streak computation (`DashboardService._calculate_streak`) -/

/-- Result of `func.date(...)` on an integer-seconds timestamp: the calendar day
number. -/
def dateOf (ts : Int) : Int := ts / 86400

/-- Insertion into a descending list, used to model `ORDER BY date DESC`. -/
def insertDesc (x : Int) : List Int → List Int
  | [] => [x]
  | y :: ys => if y ≤ x then x :: y :: ys else y :: insertDesc x ys

/-- Sort a list of day numbers in descending order. -/
def sortDesc (l : List Int) : List Int := l.foldr insertDesc []

/-- The `SELECT DISTINCT date(updated_at) ... WHERE status = 'completed'
ORDER BY date DESC` query feeding the streak loop. -/
def completed_dates (records : List Progress) : List Int :=
  sortDesc (((records.filter fun p => p.status == Status.completed).map
    fun p => dateOf p.updated_at).dedup)

/-- The `for date_row in completed_dates` loop of `_calculate_streak`:
count a date equal to the expected day or one day earlier (bridging a
single missing day) and stop at anything else. -/
def streakLoop : Int → Nat → List Int → Nat
  | _, streak, [] => streak
  | current_date, streak, d :: rest =>
    if d = current_date then streakLoop (current_date - 1) (streak + 1) rest
    else if d = current_date - 1 then streakLoop (d - 1) (streak + 1) rest
    else streak

/-- Embedding of `DashboardService._calculate_streak`: 0 when the student has no
completed dates, otherwise the loop starting from today with streak 0. -/
def calculate_streak (today : Int) (records : List Progress) : Nat :=
  let dates := completed_dates records
  if dates.isEmpty then 0 else streakLoop today 0 dates

/-- The descending run `[t, t-1, …, t-(n-1)]` of consecutive day numbers. -/
def descRun (t : Int) : Nat → List Int
  | 0 => []
  | n + 1 => t :: descRun (t - 1) n

theorem streakLoop_run : ∀ (n : Nat) (c : Int) (s : Nat) (rest : List Int),
    (∀ d ∈ rest, d < c - n - 1) →
    streakLoop c s (descRun c n ++ rest) = s + n := by
  intro n
  induction n with
  | zero =>
    intro c s rest h
    rcases rest with _ | ⟨d, ds⟩
    · rfl
    · have hd := h d (List.mem_cons_self d ds)
      have h1 : ¬ d = c := by intro he; rw [he] at hd; simp at hd; omega
      have h2 : ¬ d = c - 1 := by intro he; rw [he] at hd; simp at hd
      simp [descRun, streakLoop, h1, h2]
  | succ n ih =>
    intro c s rest h
    rw [show descRun c (n+1) ++ rest = c :: (descRun (c-1) n ++ rest) from rfl]
    rw [show streakLoop c s (c :: (descRun (c - 1) n ++ rest)) =
        streakLoop (c - 1) (s + 1) (descRun (c - 1) n ++ rest) from by
      simp [streakLoop]]
    rw [ih (c - 1) (s + 1) rest (fun d hd => by have := h d hd; push_cast at *; omega)]
    omega

/-- A completed attempt of student 1 updated at the given timestamp. -/
def c8Row (ts : Int) : Progress :=
  { student_id := 1, exercise_id := 1, status := .completed, updated_at := ts }

/-- Completions on days 100, 99 and 98. -/
def c8Demo3 : List Progress := [c8Row 8640000, c8Row 8553600, c8Row 8467200]

/-- Completions on days 100 and 97. -/
def c8DemoGap : List Progress := [c8Row 8640000, c8Row 8380800]

/-- Two completions on the same day 100. -/
def c8DemoDup : List Progress := [c8Row 8640000, c8Row 8640005]

/-- An attempt that never reached `completed`. -/
def c8NotDone : Progress :=
  { student_id := 1, exercise_id := 1, status := .in_progress }

/-- C8: the streak is 0 when no attempt is completed; a descending run of
`n` consecutive days followed only by dates more than one day older counts
exactly `n`; completions on {today, yesterday, day-before} give 3;
completions on {today, 3-days-ago} give 1; same-day duplicate completions
count one day; and the empty record set gives 0. -/
theorem streak_spec :
    (∀ (today : Int) (records : List Progress),
      (records.filter fun p => p.status == Status.completed) = [] →
      calculate_streak today records = 0)
  ∧ (∀ (today : Int) (n : Nat) (rest : List Int),
      (∀ d ∈ rest, d < today - n - 1) →
      streakLoop today 0 (descRun today n ++ rest) = n)
  ∧ calculate_streak 100 c8Demo3 = 3
  ∧ calculate_streak 100 c8DemoGap = 1
  ∧ calculate_streak 100 c8DemoDup = 1
  ∧ (∀ today : Int, calculate_streak today [] = 0) := by
  refine ⟨?_, ?_, rfl, rfl, rfl, fun today => rfl⟩
  · intro today records h
    unfold calculate_streak completed_dates
    rw [h]
    rfl
  · intro today n rest h
    have hrun := streakLoop_run n today 0 rest h
    simpa using hrun

/-- Witness for C8: a student whose only attempt is not completed has
streak 0, and a two-day run followed by day 90 counts 2. -/
theorem streak_spec_witness :
    calculate_streak 100 [c8NotDone] = 0 ∧
      streakLoop 100 0 (descRun 100 2 ++ [90]) = 2 := by
  constructor
  · exact streak_spec.1 100 [c8NotDone] rfl
  · refine streak_spec.2.1 100 2 [90] ?_
    intro d hd
    rw [List.mem_singleton] at hd
    subst hd
    decide

end EduMath
